import Mathlib

/-!
Verification of the event intake-and-dispatch pipeline of the
pega-python-integration service (src/backend/app.py, src/backend/models.py).

Shallow embedding conventions:
* JSON documents are modelled by the inductive `Json` (the fragment used by
  the service: null, booleans, integers, strings, arrays, objects).
  `json.dumps`/`json.loads` round-trip structurally, so the stored
  `payload_json` column is modelled as the `Json` value itself.
* Timestamps (`datetime.utcnow().isoformat()`) are opaque strings supplied
  as an explicit `now` argument to each operation.
* The SQLite `events` table is a list of records in insertion order plus the
  AUTOINCREMENT counter (`next_id`, starting at 1); `SELECT ... WHERE id = ?`
  is `find?`, `UPDATE ... WHERE id = ?` maps over the list.
* `BackgroundTasks.add_task` is modelled by the list of scheduled event ids
  returned alongside the store and HTTP result.
-/

/-- JSON values, as produced by `request.json()` / `json.loads`. -/
inductive Json where
  | null : Json
  | bool (b : Bool) : Json
  | num (n : Int) : Json
  | str (s : String) : Json
  | arr (elems : List Json) : Json
  | obj (fields : List (String × Json)) : Json

namespace Json

/-- Python `d.get(k)` on a parsed JSON object: `None` for a non-dict or a
missing key. -/
def getField : Json → String → Option Json
  | .obj kvs, k => kvs.lookup k
  | _, _ => none

/-- Python truthiness of a JSON value (`if v:`). -/
def truthy : Json → Bool
  | .null => false
  | .bool b => b
  | .num n => n != 0
  | .str s => s != ""
  | .arr xs => !xs.isEmpty
  | .obj kvs => !kvs.isEmpty

end Json

/-- Python truthiness of a `d.get(k)` result (`None` is falsy). -/
def pyTruthy : Option Json → Bool
  | none => false
  | some j => j.truthy

mutual

/-- Python `repr()` of a JSON value (single-quoted strings, `True`/`False`/
`None`, bracketed containers). -/
def Json.pyRepr : Json → String
  | .null => "None"
  | .bool true => "True"
  | .bool false => "False"
  | .num n => toString n
  | .str s => "\x27" ++ s ++ "\x27"
  | .arr xs => "[" ++ String.intercalate ", " (pyReprList xs) ++ "]"
  | .obj kvs => "\x7b" ++ String.intercalate ", " (pyReprFields kvs) ++ "\x7d"

/-- Elementwise `repr()` of a JSON array. -/
def pyReprList : List Json → List String
  | [] => []
  | x :: xs => Json.pyRepr x :: pyReprList xs

/-- Entrywise `repr()` of a JSON object. -/
def pyReprFields : List (String × Json) → List String
  | [] => []
  | kv :: xs => ("\x27" ++ kv.1 ++ "\x27: " ++ Json.pyRepr kv.2) :: pyReprFields xs

end

/-- Python `str()` of a JSON value (strings print without quotes). -/
def Json.pyString : Json → String
  | .str s => s
  | j => j.pyRepr

/-- Python `f"{x}"` where `x` is a `d.get(k)` result (`None` prints as
`"None"`). -/
def pyStr : Option Json → String
  | none => "None"
  | some j => j.pyString

/-- Embedding of a `d.get(k)` result back into a JSON document field (Python
stores the raw object; `None` serialises to `null`). -/
def optJson : Option Json → Json
  | none => .null
  | some j => j

/-! ## models.py: statuses, events, and the dispatcher -/

/-- Lifecycle statuses (`EventStatus` enum in models.py). -/
inductive EventStatus where
  | received : EventStatus
  | processing : EventStatus
  | processed : EventStatus
  | failed : EventStatus
  | requires_action : EventStatus
deriving DecidableEq

/-- The `.value` string of each `EventStatus` member. -/
def EventStatus.value : EventStatus → String
  | .received => "received"
  | .processing => "processing"
  | .processed => "processed"
  | .failed => "failed"
  | .requires_action => "requires_action"

/-- In-memory event object (`PegaEvent` in models.py). `received_at` is kept
as the raw timestamp string. -/
structure PegaEvent where
  event_id : Nat
  case_id : String
  event : String
  payload : Json
  received_at : String
  status : EventStatus

/-- Membership test `v in [list of strings]` where `v` is a `payload.get`
result (Python equality of a JSON value with a `str` holds only for that
string). -/
def pyMemStr (v : Option Json) (l : List String) : Bool :=
  match v with
  | some (.str s) => l.contains s
  | _ => false

/-- Departments considered high risk (`_is_high_risk_department_change`). -/
def high_risk_depts : List String := ["Finance", "Security", "IT", "Legal"]

/-- Embedding of `EventProcessor._is_high_risk_department_change`. -/
def is_high_risk_department_change (old_dept new_dept : Option Json) : Bool :=
  pyMemStr old_dept high_risk_depts || pyMemStr new_dept high_risk_depts

/-- Embedding of `EventProcessor._calculate_risk_score`. -/
def calculate_risk_score (payload : Json) : Nat :=
  let score :=
    (if pyTruthy (payload.getField "hasFinancialAccess") then 3 else 0)
    + (if pyTruthy (payload.getField "hasAdminRights") then 4 else 0)
    + (if pyTruthy (payload.getField "accessToSensitiveData") then 3 else 0)
  min score 10

/-- Embedding of `EventProcessor._update_external_systems`. -/
def update_external_systems (employee_id new_dept : Option Json) : List String :=
  [ "Updated employee directory for " ++ pyStr employee_id
  , "Updated badge access for department " ++ pyStr new_dept
  , "Email signature updated" ]

/-- Embedding of `EventProcessor._create_onboarding_checklist`. -/
def create_onboarding_checklist (_payload : Json) : List String :=
  [ "IT equipment assignment"
  , "Badge creation"
  , "Email account setup"
  , "System access requests"
  , "Orientation scheduling" ]

/-- Embedding of `EventProcessor._create_it_access_requests`. -/
def create_it_access_requests (employee_id department : Option Json) : List String :=
  [ "Created IT access request for " ++ pyStr employee_id
  , "Submitted department-specific system access for " ++ pyStr department ]

/-- Embedding of `EventProcessor._revoke_system_access`. -/
def revoke_system_access (employee_id : Option Json) : List String :=
  [ "Revoked all system access for " ++ pyStr employee_id
  , "Disabled email account"
  , "Returned badge access" ]

/-- Embedding of `EventProcessor._create_asset_return_list`. -/
def create_asset_return_list (_employee_id : Option Json) : List String :=
  ["Laptop", "Badge", "Phone", "Office keys"]

/-- Embedding of `EventProcessor._update_role_permissions`. -/
def update_role_permissions (employee_id old_role new_role : Option Json) : List String :=
  [ "Updated system permissions for " ++ pyStr employee_id
  , "Role changed from " ++ pyStr old_role ++ " to " ++ pyStr new_role ++ " in all systems" ]

/-- Embedding of `EventProcessor._process_department_change`.  `hc` models
whether `self.pega_client` is configured; the `add_case_note` call is an
external effect with no bearing on the store. -/
def process_department_change (hc : Bool) (e : PegaEvent) : Json :=
  let payload := e.payload
  let employee_id := payload.getField "employeeId"
  let old_dept := payload.getField "oldDepartment"
  let new_dept := payload.getField "newDepartment"
  let actions_risk : List String :=
    if is_high_risk_department_change old_dept new_dept then
      let risk_score := calculate_risk_score payload
      let a := ["Risk analysis completed. Score: " ++ toString risk_score]
      if 7 < risk_score ∧ hc = true then a ++ ["Risk alert sent to Pega"] else a
    else []
  let actions_taken := actions_risk ++ update_external_systems employee_id new_dept
  .obj [ ("status", .str "processed")
       , ("event_type", .str "department_change")
       , ("actions_taken", .arr (actions_taken.map Json.str))
       , ("employee_id", optJson employee_id)
       , ("department_change", .str (pyStr old_dept ++ " → " ++ pyStr new_dept)) ]

/-- Embedding of `EventProcessor._process_onboarding`. -/
def process_onboarding (e : PegaEvent) : Json :=
  let payload := e.payload
  let employee_id := payload.getField "employeeId"
  let department := payload.getField "department"
  let checklist := create_onboarding_checklist payload
  let actions_taken :=
    ("Onboarding checklist created with " ++ toString checklist.length ++ " items")
      :: create_it_access_requests employee_id department
  .obj [ ("status", .str "processed")
       , ("event_type", .str "employee_onboarding")
       , ("actions_taken", .arr (actions_taken.map Json.str))
       , ("employee_id", optJson employee_id)
       , ("checklist_items", .num checklist.length) ]

/-- Embedding of `EventProcessor._process_offboarding`. -/
def process_offboarding (e : PegaEvent) : Json :=
  let payload := e.payload
  let employee_id := payload.getField "employeeId"
  let last_day := payload.getField "lastWorkingDay"
  let asset_list := create_asset_return_list employee_id
  let actions_taken :=
    revoke_system_access employee_id
      ++ ["Asset return checklist created: " ++ toString asset_list.length ++ " items"]
  .obj [ ("status", .str "processed")
       , ("event_type", .str "employee_offboarding")
       , ("actions_taken", .arr (actions_taken.map Json.str))
       , ("employee_id", optJson employee_id)
       , ("last_working_day", optJson last_day) ]

/-- Embedding of `EventProcessor._process_role_change`. -/
def process_role_change (e : PegaEvent) : Json :=
  let payload := e.payload
  let employee_id := payload.getField "employeeId"
  let old_role := payload.getField "oldRole"
  let new_role := payload.getField "newRole"
  let actions_taken := update_role_permissions employee_id old_role new_role
  .obj [ ("status", .str "processed")
       , ("event_type", .str "role_change")
       , ("actions_taken", .arr (actions_taken.map Json.str))
       , ("employee_id", optJson employee_id)
       , ("role_change", .str (pyStr old_role ++ " → " ++ pyStr new_role)) ]

/-- Handler table type: `EventProcessor.self.processors`.  A handler is a
function of the event that either returns a result document or raises
(`Except.error msg` models a raised exception with message `msg`). -/
def ProcTable : Type := String → Option (PegaEvent → Except String Json)

/-- The handler table built by `EventProcessor.__init__` (keys are the four
registered `EventType` values). -/
def defaultProcessors (hc : Bool) : ProcTable := fun ev =>
  if ev = "department_change" then some (fun e => .ok (process_department_change hc e))
  else if ev = "employee_onboarding" then some (fun e => .ok (process_onboarding e))
  else if ev = "employee_offboarding" then some (fun e => .ok (process_offboarding e))
  else if ev = "role_change" then some (fun e => .ok (process_role_change e))
  else none

/-- The result document returned by `process_event` when no processor is
registered for the event type. -/
def ignoredResult (ev : String) : Json :=
  .obj [ ("status", .str "ignored")
       , ("message", .str ("No processor found for event type: " ++ ev)) ]

/-- The result document returned by `process_event` when the handler raised
an exception with message `msg`. -/
def errorResult (msg : String) : Json :=
  .obj [ ("status", .str "error")
       , ("message", .str msg) ]

/-- Embedding of `EventProcessor.process_event`.  Python mutates
`event.status`; the returned pair is (result document, `event.status` after
the call).  On the ignored branch the status is left unchanged; on handler
success it is set to `PROCESSED`; a raised exception is caught and the
status set to `FAILED`. -/
def process_event (P : ProcTable) (e : PegaEvent) : Json × EventStatus :=
  match P e.event with
  | none => (ignoredResult e.event, e.status)
  | some proc =>
    match proc e with
    | .ok result => (result, .processed)
    | .error msg => (errorResult msg, .failed)

/-! ## app.py: the events table and the HTTP operations -/

/-- A row of the SQLite `events` table.  `status` is the TEXT column;
`processed_at` / `processing_result` are NULLable. -/
structure EventRecord where
  id : Nat
  received_at : String
  case_id : String
  event : String
  payload_json : Json
  status : String
  processed_at : Option String
  processing_result : Option Json

/-- The events database: rows in insertion order plus the AUTOINCREMENT
counter (next id to assign; SQLite starts at 1). -/
structure Store where
  events : List EventRecord
  next_id : Nat

/-- The freshly created database (`init_db` on a new file). -/
def initStore : Store := { events := [], next_id := 1 }

/-- `SELECT ... WHERE id = ?` followed by `fetchone`. -/
def Store.get (s : Store) (id : Nat) : Option EventRecord :=
  s.events.find? (fun r => r.id == id)

/-- `UPDATE events SET ... WHERE id = ?`: rewrite the matching row, leave
every other row alone. -/
def Store.updateEvent (s : Store) (id : Nat) (f : EventRecord → EventRecord) : Store :=
  { s with events := s.events.map (fun r => if r.id == id then f r else r) }

/-- Embedding of `PegaEvent.from_db_row`: the row loaded by the pipeline
carries only (id, received_at, case_id, event, payload_json), and the
constructor always initialises `status` to `RECEIVED`. -/
def PegaEvent.from_db_row (r : EventRecord) : PegaEvent :=
  { event_id := r.id
  , case_id := r.case_id
  , event := r.event
  , payload := r.payload_json
  , received_at := r.received_at
  , status := .received }

/-- Row change of the UPDATE setting the status column to `processing`. -/
def markRow (r : EventRecord) : EventRecord :=
  { r with status := "processing" }

/-- Row change of the final UPDATE of the pipeline: persist the dispatch
status string, the completion timestamp and the JSON-dumped result. -/
def finishRow (now : String) (res : Json × EventStatus) (r : EventRecord) : EventRecord :=
  { r with status := res.2.value
         , processed_at := some now
         , processing_result := some res.1 }

/-- Row change of the reprocess reset:
the UPDATE setting status back to `received` and both `processed_at` and
`processing_result` to NULL. -/
def resetRow (r : EventRecord) : EventRecord :=
  { r with status := "received", processed_at := none, processing_result := none }

/-- The first write of the pipeline:
the UPDATE that sets the status of the row with the given id to
`processing` (a no-op when the id is absent). -/
def markProcessing (s : Store) (id : Nat) : Store :=
  s.updateEvent id markRow

/-- Embedding of `process_event_background`: load the row (abort unchanged
when absent), mark it `processing`, dispatch, then persist
`event.status.value`, a fresh `processed_at` timestamp and the JSON-dumped
result in one UPDATE. -/
def process_event_background (P : ProcTable) (s : Store) (event_id : Nat) (now : String) : Store :=
  match s.get event_id with
  | none => s
  | some row =>
    let e := PegaEvent.from_db_row row
    let s1 := markProcessing s event_id
    s1.updateEvent event_id (finishRow now (process_event P e))

/-- HTTP outcome of `POST /webhook/pega`. -/
inductive WebhookResult where
  | badRequest (detail : String) : WebhookResult
  | accepted (eventId : Nat) (message : String) : WebhookResult
deriving DecidableEq

/-- The row inserted by `pega_webhook`: AUTOINCREMENT id, the insertion
timestamp, `str(case_id)` / `str(event)`, the dumped body, and the column
defaults (status `received`, NULL `processed_at` / `processing_result`). -/
def webhookRow (s : Store) (data : Json) (now : String) : EventRecord :=
  { id := s.next_id
  , received_at := now
  , case_id := pyStr (data.getField "caseId")
  , event := pyStr (data.getField "event")
  , payload_json := data
  , status := "received"
  , processed_at := none
  , processing_result := none }

/-- Embedding of `pega_webhook` on an already-parsed JSON body: validate
`caseId` / `event` by Python truthiness, then INSERT the row with status
`received` and NULL `processed_at` / `processing_result`, and schedule one
background task for the assigned id (the returned list). -/
def pega_webhook (s : Store) (data : Json) (now : String) :
    Store × WebhookResult × List Nat :=
  let case_id := data.getField "caseId"
  let event := data.getField "event"
  if !pyTruthy case_id || !pyTruthy event then
    (s, .badRequest "Fields \x27caseId\x27 and \x27event\x27 are required", [])
  else
    ( { events := s.events ++ [webhookRow s data now], next_id := s.next_id + 1 }
    , .accepted s.next_id
        ("Event " ++ pyStr event ++ " for case " ++ pyStr case_id ++ " queued for processing")
    , [s.next_id] )

/-- Python truthiness of an optional query-string value (`if event:` ignores
both `None` and the empty string). -/
def strTruthy : Option String → Bool
  | none => false
  | some s => s != ""

/-- One `AND field = ?` clause of `list_events`: added only when the filter
value is truthy. -/
def applyFilter (v : Option String) (field : String) : Bool :=
  if strTruthy v then field == v.getD "" else true

/-- The WHERE clause of `list_events` for one row. -/
def matchesFilters (event status case_id : Option String) (r : EventRecord) : Bool :=
  applyFilter event r.event && applyFilter status r.status && applyFilter case_id r.case_id

/-- Insert a row into a list sorted by descending id (`ORDER BY id DESC`). -/
def insertDesc (r : EventRecord) : List EventRecord → List EventRecord
  | [] => [r]
  | x :: xs => if x.id ≤ r.id then r :: x :: xs else x :: insertDesc r xs

/-- Sort rows by descending id (`ORDER BY id DESC`). -/
def sortDesc : List EventRecord → List EventRecord
  | [] => []
  | x :: xs => insertDesc x (sortDesc xs)

/-- FastAPI validation of `limit: int = Query(10, ge=1, le=100)`: absent
means the default 10; an out-of-range value is rejected before the handler
runs (HTTP 422). -/
def validateLimit : Option Int → Except String Int
  | none => .ok 10
  | some n => if 1 ≤ n ∧ n ≤ 100 then .ok n else .error "limit out of range"

/-- Embedding of `GET /events` (`list_events`): validate the limit, apply
the truthy filters, order by id descending, take `limit` rows.  The rows
are returned as stored (`payload`/`processing_result` round-trip through
`json.dumps`/`json.loads` structurally). -/
def list_events (s : Store) (limit : Option Int) (event status case_id : Option String) :
    Except String (List EventRecord) :=
  match validateLimit limit with
  | .error e => .error e
  | .ok n => .ok ((sortDesc (s.events.filter (matchesFilters event status case_id))).take n.toNat)

/-- Embedding of `GET /events/{event_id}` (`get_event`): the row, or `none`
for the 404 branch. -/
def get_event (s : Store) (event_id : Nat) : Option EventRecord :=
  s.get event_id

/-- HTTP outcome of `POST /events/{event_id}/reprocess`. -/
inductive ReprocessResult where
  | notFound : ReprocessResult
  | invalidTransition : ReprocessResult
  | queued (message : String) : ReprocessResult
deriving DecidableEq

/-- Embedding of `reprocess_event`: 404 when the id is absent; 400 when the
current status is outside `{failed, received}`; otherwise reset status to
`received` and NULL out `processed_at` / `processing_result`, schedule a
background task for the id, and answer 200 `queued`. -/
def reprocess_event (s : Store) (event_id : Nat) :
    Store × ReprocessResult × List Nat :=
  match s.get event_id with
  | none => (s, .notFound, [])
  | some row =>
    if !(["failed", "received"].contains row.status) then
      (s, .invalidTransition, [])
    else
      ( s.updateEvent event_id resetRow
      , .queued "Event queued for reprocessing"
      , [event_id] )

/-! ## Reachable store states

One step of the system as observable through the store: a webhook call, the
first commit of a background run (the `processing` mark), a complete
background run, or a reprocess call.  Background runs are quantified over
an arbitrary handler table, which subsumes `defaultProcessors`. -/

/-- One observable transition of the events database. -/
inductive Step : Store → Store → Prop where
  | webhook (s : Store) (data : Json) (now : String) :
      Step s (pega_webhook s data now).1
  | mark (s : Store) (id : Nat) :
      Step s (markProcessing s id)
  | run (s : Store) (P : ProcTable) (id : Nat) (now : String) :
      Step s (process_event_background P s id now)
  | reprocess (s : Store) (id : Nat) :
      Step s (reprocess_event s id).1

/-- Stores reachable from the fresh database. -/
def Reachable (s : Store) : Prop :=
  Relation.ReflTransGen Step initStore s

/-! ## Row-level predicates used by the invariants -/

/-- The immutable identity of a row: every column except `status`,
`processed_at` and `processing_result`. -/
def SameCore (r r' : EventRecord) : Prop :=
  r'.id = r.id ∧ r'.received_at = r.received_at ∧ r'.case_id = r.case_id
    ∧ r'.event = r.event ∧ r'.payload_json = r.payload_json

/-- Row functions that change only the mutable columns. -/
def CorePreserving (f : EventRecord → EventRecord) : Prop :=
  ∀ r, SameCore r (f r)

/-- Rows in a terminal-written status carry a completion timestamp. -/
def StatusRowOk (r : EventRecord) : Prop :=
  r.status = "processed" ∨ r.status = "failed" → r.processed_at ≠ none

/-- Store-wide form of `StatusRowOk`. -/
def StatusInv (s : Store) : Prop :=
  ∀ r ∈ s.events, StatusRowOk r

/-- Id-discipline of the AUTOINCREMENT column: every row id is below the
counter and ids strictly increase in insertion order. -/
def IdInv (s : Store) : Prop :=
  (∀ r ∈ s.events, r.id < s.next_id) ∧ s.events.Pairwise (fun a b => a.id < b.id)

/-! ## Concrete scenarios (used by counterexamples and witnesses) -/

/-- Webhook body whose event type has no registered handler. -/
def unknownTypeBody : Json :=
  .obj [("caseId", .str "C-1"), ("event", .str "approval_request")]

/-- Store after accepting `unknownTypeBody`. -/
def storeUnknown1 : Store := (pega_webhook initStore unknownTypeBody "t0").1

/-- Store after the background run on the unknown-type event. -/
def storeUnknown2 : Store :=
  process_event_background (defaultProcessors false) storeUnknown1 1 "t1"

/-- Webhook body routed to the registered `employee_onboarding` handler. -/
def onboardingBody : Json :=
  .obj [ ("caseId", .str "C-2"), ("event", .str "employee_onboarding")
       , ("employeeId", .str "E1"), ("department", .str "Sales") ]

/-- Store after accepting `onboardingBody`. -/
def storeOnb1 : Store := (pega_webhook initStore onboardingBody "t0").1

/-- Store after the background run on the onboarding event. -/
def storeOnb2 : Store :=
  process_event_background (defaultProcessors false) storeOnb1 1 "t1"

/-- The single row of `storeOnb2`. -/
def onbRow : EventRecord :=
  finishRow "t1"
    (process_event (defaultProcessors false)
      (PegaEvent.from_db_row (webhookRow initStore onboardingBody "t0")))
    (markRow (webhookRow initStore onboardingBody "t0"))

/-- The single row of `storeUnknown2`. -/
def unknownRow : EventRecord :=
  finishRow "t1"
    (process_event (defaultProcessors false)
      (PegaEvent.from_db_row (webhookRow initStore unknownTypeBody "t0")))
    (markRow (webhookRow initStore unknownTypeBody "t0"))

/-- Handler table with one deliberately failing handler, exercising the
exception-catch branch of `process_event`. -/
def failingTable : ProcTable := fun ev =>
  if ev = "boom" then some (fun _ => .error "kaboom") else none

/-- Webhook body dispatched to the failing handler of `failingTable`. -/
def boomBody : Json := .obj [("caseId", .str "C-3"), ("event", .str "boom")]

/-- Store after accepting `boomBody`. -/
def storeBoom1 : Store := (pega_webhook initStore boomBody "t0").1

/-- Webhook body missing the required `caseId` field. -/
def missingCaseBody : Json := .obj [("event", .str "x")]

/-! ## Store lemmas -/

theorem Store.events_updateEvent (s : Store) (id : Nat) (f : EventRecord → EventRecord) :
    (s.updateEvent id f).events = s.events.map (fun r => if r.id == id then f r else r) := rfl

theorem Store.next_id_updateEvent (s : Store) (id : Nat) (f : EventRecord → EventRecord) :
    (s.updateEvent id f).next_id = s.next_id := rfl

theorem Store.get_updateEvent (s : Store) (id : Nat) (f : EventRecord → EventRecord)
    (hf : ∀ r, (f r).id = r.id) (j : Nat) :
    (s.updateEvent id f).get j = (s.get j).map (fun r => if r.id == id then f r else r) := by
  have hstart : (s.updateEvent id f).get j
      = (s.events.map (fun r => if r.id == id then f r else r)).find? (fun r => r.id == j) := rfl
  rw [hstart, List.find?_map]
  have hpred : ((fun r : EventRecord => r.id == j) ∘ (fun r => if r.id == id then f r else r))
      = fun r : EventRecord => r.id == j := by
    funext r
    by_cases h : (r.id == id) = true
    · simp [Function.comp, h, hf]
    · simp [Function.comp, h]
  rw [hpred]
  rfl

theorem mem_updateEvent_inv {s : Store} {id : Nat} {f : EventRecord → EventRecord}
    {r' : EventRecord} (h : r' ∈ (s.updateEvent id f).events) :
    (∃ r ∈ s.events, r' = f r) ∨ r' ∈ s.events := by
  rw [Store.events_updateEvent] at h
  obtain ⟨r, hr, heq⟩ := List.mem_map.mp h
  by_cases hc : (r.id == id) = true
  · exact Or.inl ⟨r, hr, by rw [← heq]; simp [hc]⟩
  · right
    have : r = r' := by rw [← heq]; simp [hc]
    exact this ▸ hr

theorem SameCore.refl (r : EventRecord) : SameCore r r := ⟨rfl, rfl, rfl, rfl, rfl⟩

theorem SameCore.trans {r r' r'' : EventRecord} (h : SameCore r r') (h' : SameCore r' r'') :
    SameCore r r'' :=
  ⟨h'.1.trans h.1, h'.2.1.trans h.2.1, h'.2.2.1.trans h.2.2.1,
   h'.2.2.2.1.trans h.2.2.2.1, h'.2.2.2.2.trans h.2.2.2.2⟩

theorem corePreserving_markRow : CorePreserving markRow :=
  fun _ => ⟨rfl, rfl, rfl, rfl, rfl⟩

theorem corePreserving_finishRow (now : String) (res : Json × EventStatus) :
    CorePreserving (finishRow now res) :=
  fun _ => ⟨rfl, rfl, rfl, rfl, rfl⟩

theorem corePreserving_resetRow : CorePreserving resetRow :=
  fun _ => ⟨rfl, rfl, rfl, rfl, rfl⟩

theorem get_updateEvent_sameCore {s : Store} {id : Nat} {f : EventRecord → EventRecord}
    (hf : CorePreserving f) {j : Nat} {r : EventRecord} (h : s.get j = some r) :
    ∃ r', (s.updateEvent id f).get j = some r' ∧ SameCore r r' := by
  rw [Store.get_updateEvent s id f (fun r => (hf r).1) j, h]
  by_cases hc : (r.id == id) = true
  · refine ⟨f r, ?_, hf r⟩
    show some (if (r.id == id) = true then f r else r) = some (f r)
    rw [if_pos hc]
  · refine ⟨r, ?_, SameCore.refl r⟩
    show some (if (r.id == id) = true then f r else r) = some r
    rw [if_neg hc]

theorem mem_updateEvent_sameCore {s : Store} {id : Nat} {f : EventRecord → EventRecord}
    (hf : CorePreserving f) {r : EventRecord} (h : r ∈ s.events) :
    ∃ r' ∈ (s.updateEvent id f).events, SameCore r r' := by
  refine ⟨if r.id == id then f r else r, ?_, ?_⟩
  · rw [Store.events_updateEvent]
    exact List.mem_map_of_mem _ h
  · by_cases hc : (r.id == id) = true
    · simpa [hc] using hf r
    · simpa [hc] using SameCore.refl r

/-! ## Branch analyses of the operations -/

theorem pega_webhook_store_cases (s : Store) (data : Json) (now : String) :
    (pega_webhook s data now).1 = s
    ∨ (pega_webhook s data now).1
        = { events := s.events ++ [webhookRow s data now], next_id := s.next_id + 1 } := by
  by_cases h : (!pyTruthy (data.getField "caseId") || !pyTruthy (data.getField "event")) = true
  · exact Or.inl (by simp [pega_webhook, h])
  · exact Or.inr (by simp [pega_webhook, h])

theorem process_event_background_cases (P : ProcTable) (s : Store) (id : Nat) (now : String) :
    (process_event_background P s id now = s ∧ s.get id = none)
    ∨ ∃ row, s.get id = some row ∧
        process_event_background P s id now
          = (markProcessing s id).updateEvent id
              (finishRow now (process_event P (PegaEvent.from_db_row row))) := by
  cases h : s.get id with
  | none => exact Or.inl ⟨by simp [process_event_background, h], rfl⟩
  | some row => exact Or.inr ⟨row, rfl, by simp [process_event_background, h]⟩

theorem reprocess_event_store_cases (s : Store) (id : Nat) :
    (reprocess_event s id).1 = s
    ∨ (reprocess_event s id).1 = s.updateEvent id resetRow := by
  cases h : s.get id with
  | none => exact Or.inl (by simp [reprocess_event, h])
  | some row =>
    by_cases h1 : row.status = "failed"
    · exact Or.inr (by simp [reprocess_event, h, h1])
    · by_cases h2 : row.status = "received"
      · exact Or.inr (by simp [reprocess_event, h, h1, h2])
      · exact Or.inl (by simp [reprocess_event, h, h1, h2])

theorem webhook_accepted {s : Store} {data : Json} {now : String} {id : Nat} {m : String}
    (h : (pega_webhook s data now).2.1 = .accepted id m) :
    id = s.next_id
    ∧ (pega_webhook s data now).1
        = { events := s.events ++ [webhookRow s data now], next_id := s.next_id + 1 } := by
  by_cases hv : (!pyTruthy (data.getField "caseId") || !pyTruthy (data.getField "event")) = true
  · simp [pega_webhook, hv] at h
  · simp only [pega_webhook, hv] at h ⊢
    simp at h
    exact ⟨h.1.symm, by simp⟩

/-! ## Step-level preservation lemmas -/

theorem markRow_id (r : EventRecord) : (markRow r).id = r.id := rfl

theorem finishRow_id (now : String) (res : Json × EventStatus) (r : EventRecord) :
    (finishRow now res r).id = r.id := rfl

theorem resetRow_id (r : EventRecord) : (resetRow r).id = r.id := rfl

theorem Step.next_id_mono {s s' : Store} (h : Step s s') : s.next_id ≤ s'.next_id := by
  cases h with
  | webhook data now =>
    rcases pega_webhook_store_cases s data now with heq | heq <;> rw [heq] <;>
      exact Nat.le_succ _
  | mark id => exact Nat.le_of_eq rfl
  | run P id now =>
    rcases process_event_background_cases P s id now with ⟨heq, _⟩ | ⟨row, _, heq⟩ <;>
      rw [heq] <;> exact Nat.le_refl _
  | reprocess id =>
    rcases reprocess_event_store_cases s id with heq | heq <;> rw [heq] <;>
      exact Nat.le_refl _

theorem rtg_next_id_mono {s s' : Store} (h : Relation.ReflTransGen Step s s') :
    s.next_id ≤ s'.next_id := by
  induction h with
  | refl => exact Nat.le_refl _
  | tail _ hstep ih => exact ih.trans hstep.next_id_mono

theorem Step.get_sameCore {s s' : Store} (h : Step s s') {j : Nat} {r : EventRecord}
    (hget : s.get j = some r) : ∃ r', s'.get j = some r' ∧ SameCore r r' := by
  cases h with
  | webhook data now =>
    rcases pega_webhook_store_cases s data now with heq | heq <;> rw [heq]
    · exact ⟨r, hget, SameCore.refl r⟩
    · refine ⟨r, ?_, SameCore.refl r⟩
      have hfind : s.events.find? (fun r0 => r0.id == j) = some r := hget
      show (s.events ++ [webhookRow s data now]).find? (fun r0 => r0.id == j) = some r
      rw [List.find?_append, hfind]
      rfl
  | mark id => exact get_updateEvent_sameCore corePreserving_markRow hget
  | run P id now =>
    rcases process_event_background_cases P s id now with ⟨heq, _⟩ | ⟨row, _, heq⟩ <;> rw [heq]
    · exact ⟨r, hget, SameCore.refl r⟩
    · obtain ⟨r1, h1, c1⟩ := @get_updateEvent_sameCore s id markRow
        corePreserving_markRow j r hget
      obtain ⟨r2, h2, c2⟩ := get_updateEvent_sameCore (corePreserving_finishRow now _) h1
      exact ⟨r2, h2, c1.trans c2⟩
  | reprocess id =>
    rcases reprocess_event_store_cases s id with heq | heq <;> rw [heq]
    · exact ⟨r, hget, SameCore.refl r⟩
    · exact get_updateEvent_sameCore corePreserving_resetRow hget

theorem rtg_get_sameCore {s s' : Store} (h : Relation.ReflTransGen Step s s') {j : Nat}
    {r : EventRecord} (hget : s.get j = some r) :
    ∃ r', s'.get j = some r' ∧ SameCore r r' := by
  induction h with
  | refl => exact ⟨r, hget, SameCore.refl r⟩
  | tail _ hstep ih =>
    obtain ⟨r1, h1, c1⟩ := ih
    obtain ⟨r2, h2, c2⟩ := hstep.get_sameCore h1
    exact ⟨r2, h2, c1.trans c2⟩

theorem Step.mem_sameCore {s s' : Store} (h : Step s s') {r : EventRecord}
    (hr : r ∈ s.events) : ∃ r' ∈ s'.events, SameCore r r' := by
  cases h with
  | webhook data now =>
    rcases pega_webhook_store_cases s data now with heq | heq <;> rw [heq]
    · exact ⟨r, hr, SameCore.refl r⟩
    · exact ⟨r, List.mem_append_left _ hr, SameCore.refl r⟩
  | mark id => exact mem_updateEvent_sameCore corePreserving_markRow hr
  | run P id now =>
    rcases process_event_background_cases P s id now with ⟨heq, _⟩ | ⟨row, _, heq⟩ <;> rw [heq]
    · exact ⟨r, hr, SameCore.refl r⟩
    · obtain ⟨r1, h1, c1⟩ := @mem_updateEvent_sameCore s id markRow
        corePreserving_markRow r hr
      obtain ⟨r2, h2, c2⟩ := mem_updateEvent_sameCore (corePreserving_finishRow now _) h1
      exact ⟨r2, h2, c1.trans c2⟩
  | reprocess id =>
    rcases reprocess_event_store_cases s id with heq | heq <;> rw [heq]
    · exact ⟨r, hr, SameCore.refl r⟩
    · exact mem_updateEvent_sameCore corePreserving_resetRow hr

theorem rtg_mem_sameCore {s s' : Store} (h : Relation.ReflTransGen Step s s') {r : EventRecord}
    (hr : r ∈ s.events) : ∃ r' ∈ s'.events, SameCore r r' := by
  induction h with
  | refl => exact ⟨r, hr, SameCore.refl r⟩
  | tail _ hstep ih =>
    obtain ⟨r1, h1, c1⟩ := ih
    obtain ⟨r2, h2, c2⟩ := hstep.mem_sameCore h1
    exact ⟨r2, h2, c1.trans c2⟩

/-! ## The id invariant -/

theorem idInv_initStore : IdInv initStore :=
  ⟨fun r hr => absurd hr (List.not_mem_nil r), List.Pairwise.nil⟩

theorem idInv_updateEvent {s : Store} (h : IdInv s) {id : Nat} {f : EventRecord → EventRecord}
    (hf : ∀ r, (f r).id = r.id) : IdInv (s.updateEvent id f) := by
  have hg : ∀ r : EventRecord, (if (r.id == id) = true then f r else r).id = r.id := by
    intro r
    by_cases hc : (r.id == id) = true
    · rw [if_pos hc, hf]
    · rw [if_neg hc]
  constructor
  · intro r' hr'
    rw [Store.next_id_updateEvent]
    rw [Store.events_updateEvent] at hr'
    obtain ⟨r, hr, heq⟩ := List.mem_map.mp hr'
    have : r'.id = r.id := by rw [← heq]; exact hg r
    rw [this]
    exact h.1 r hr
  · rw [Store.events_updateEvent]
    refine List.Pairwise.map _ ?_ h.2
    intro a b hab
    show (if (a.id == id) = true then f a else a).id < (if (b.id == id) = true then f b else b).id
    rw [hg a, hg b]
    exact hab

theorem idInv_step {s s' : Store} (hstep : Step s s') (h : IdInv s) : IdInv s' := by
  cases hstep with
  | webhook data now =>
    rcases pega_webhook_store_cases s data now with heq | heq <;> rw [heq]
    · exact h
    · constructor
      · intro r hr
        rcases List.mem_append.mp hr with hr | hr
        · exact (h.1 r hr).trans (Nat.lt_succ_self _)
        · rw [List.mem_singleton.mp hr]
          exact Nat.lt_succ_self _
      · rw [List.pairwise_append]
        refine ⟨h.2, List.pairwise_singleton _ _, ?_⟩
        intro a ha b hb
        rw [List.mem_singleton.mp hb]
        exact h.1 a ha
  | mark id => exact idInv_updateEvent h markRow_id
  | run P id now =>
    rcases process_event_background_cases P s id now with ⟨heq, _⟩ | ⟨row, _, heq⟩ <;> rw [heq]
    · exact h
    · exact idInv_updateEvent (idInv_updateEvent h markRow_id) (finishRow_id now _)
  | reprocess id =>
    rcases reprocess_event_store_cases s id with heq | heq <;> rw [heq]
    · exact h
    · exact idInv_updateEvent h resetRow_id

theorem idInv_reachable {s : Store} (h : Reachable s) : IdInv s := by
  induction h with
  | refl => exact idInv_initStore
  | tail _ hstep ih => exact idInv_step hstep ih

/-! ## The terminal-timestamp invariant -/

theorem statusRowOk_webhookRow (s : Store) (data : Json) (now : String) :
    StatusRowOk (webhookRow s data now) := by
  intro h
  have hs : (webhookRow s data now).status = "received" := rfl
  rw [hs] at h
  rcases h with h | h <;> exact absurd h (by decide)

theorem statusRowOk_markRow (r : EventRecord) : StatusRowOk (markRow r) := by
  intro h
  have hs : (markRow r).status = "processing" := rfl
  rw [hs] at h
  rcases h with h | h <;> exact absurd h (by decide)

theorem statusRowOk_finishRow (now : String) (res : Json × EventStatus) (r : EventRecord) :
    StatusRowOk (finishRow now res r) := by
  intro _
  exact Option.some_ne_none now

theorem statusRowOk_resetRow (r : EventRecord) : StatusRowOk (resetRow r) := by
  intro h
  have hs : (resetRow r).status = "received" := rfl
  rw [hs] at h
  rcases h with h | h <;> exact absurd h (by decide)

theorem statusInv_updateEvent {s : Store} (h : StatusInv s) {id : Nat}
    {f : EventRecord → EventRecord} (hf : ∀ r, StatusRowOk (f r)) :
    StatusInv (s.updateEvent id f) := by
  intro r' hr'
  rcases mem_updateEvent_inv hr' with ⟨r, _, heq⟩ | hr'
  · rw [heq]; exact hf r
  · exact h r' hr'

theorem statusInv_step {s s' : Store} (hstep : Step s s') (h : StatusInv s) : StatusInv s' := by
  cases hstep with
  | webhook data now =>
    rcases pega_webhook_store_cases s data now with heq | heq <;> rw [heq]
    · exact h
    · intro r hr
      rcases List.mem_append.mp hr with hr | hr
      · exact h r hr
      · rw [List.mem_singleton.mp hr]
        exact statusRowOk_webhookRow s data now
  | mark id => exact statusInv_updateEvent h statusRowOk_markRow
  | run P id now =>
    rcases process_event_background_cases P s id now with ⟨heq, _⟩ | ⟨row, _, heq⟩ <;> rw [heq]
    · exact h
    · exact statusInv_updateEvent (statusInv_updateEvent h statusRowOk_markRow)
        (statusRowOk_finishRow now _)
  | reprocess id =>
    rcases reprocess_event_store_cases s id with heq | heq <;> rw [heq]
    · exact h
    · exact statusInv_updateEvent h statusRowOk_resetRow

theorem statusInv_reachable {s : Store} (h : Reachable s) : StatusInv s := by
  induction h with
  | refl => intro r hr; exact absurd hr (List.not_mem_nil r)
  | tail _ hstep ih => exact statusInv_step hstep ih

/-! ## The pipeline on a loadable id -/

theorem process_event_background_found {P : ProcTable} {s : Store} {id : Nat} {now : String}
    {r : EventRecord} (hget : s.get id = some r) :
    (process_event_background P s id now).get id
      = some (finishRow now (process_event P (PegaEvent.from_db_row r)) (markRow r)) := by
  have hfind : s.events.find? (fun r0 => r0.id == id) = some r := hget
  have hrid : (r.id == id) = true := by
    have hp := List.find?_some hfind
    exact hp
  rcases process_event_background_cases P s id now with ⟨_, hn⟩ | ⟨row, hrow, heq⟩
  · rw [hget] at hn; cases hn
  · rw [hget] at hrow
    injection hrow with hrow
    subst hrow
    rw [heq]
    rw [Store.get_updateEvent _ _ _ (finishRow_id now _) id]
    have hmark : (markProcessing s id).get id = some (markRow r) := by
      rw [show (markProcessing s id).get id
            = (s.get id).map (fun r0 => if r0.id == id then markRow r0 else r0) from
          Store.get_updateEvent s id markRow markRow_id id]
      rw [hget]
      show some (if (r.id == id) = true then markRow r else r) = some (markRow r)
      rw [if_pos hrid]
    rw [hmark]
    have hmrid : ((markRow r).id == id) = true := hrid
    exact congrArg some (if_pos hmrid)

/-! ## Sortedness of `ORDER BY id DESC` -/

theorem mem_insertDesc {x r : EventRecord} {l : List EventRecord} :
    x ∈ insertDesc r l ↔ x = r ∨ x ∈ l := by
  induction l with
  | nil => simp [insertDesc]
  | cons a as ih =>
    by_cases h : a.id ≤ r.id
    · simp [insertDesc, h]
    · simp only [insertDesc, if_neg h, List.mem_cons, ih]
      tauto

theorem pairwise_insertDesc {r : EventRecord} {l : List EventRecord}
    (h : l.Pairwise (fun a b => b.id ≤ a.id)) :
    (insertDesc r l).Pairwise (fun a b => b.id ≤ a.id) := by
  induction l with
  | nil => simp [insertDesc]
  | cons a as ih =>
    rcases List.pairwise_cons.mp h with ⟨ha, has⟩
    by_cases hle : a.id ≤ r.id
    · rw [show insertDesc r (a :: as) = r :: a :: as from by rw [insertDesc, if_pos hle]]
      refine List.pairwise_cons.mpr ⟨?_, h⟩
      intro b hb
      rcases List.mem_cons.mp hb with hb | hb
      · rw [hb]; exact hle
      · exact (ha b hb).trans hle
    · rw [show insertDesc r (a :: as) = a :: insertDesc r as from by rw [insertDesc, if_neg hle]]
      refine List.pairwise_cons.mpr ⟨?_, ih has⟩
      intro b hb
      rcases mem_insertDesc.mp hb with hb | hb
      · rw [hb]; exact Nat.le_of_lt (Nat.lt_of_not_le hle)
      · exact ha b hb

theorem pairwise_sortDesc (l : List EventRecord) :
    (sortDesc l).Pairwise (fun a b => b.id ≤ a.id) := by
  induction l with
  | nil => simp [sortDesc]
  | cons a as ih =>
    rw [show sortDesc (a :: as) = insertDesc a (sortDesc as) from rfl]
    exact pairwise_insertDesc ih

/-! ## Claim theorems -/

/-- C1, counterexample: accepting an event of the unregistered type
`approval_request` and running the pipeline leaves the persisted status at
`"received"`, not `"processed"`, even though dispatch returned the Ignored
outcome — refuting the claim that the pipeline persists ignored events with
status `processed`. -/
theorem C1_ignored_not_marked_processed_cex :
    (process_event (defaultProcessors false)
        (PegaEvent.from_db_row (webhookRow initStore unknownTypeBody "t0"))).1
      = ignoredResult "approval_request"
    ∧ (storeUnknown2.get 1).map (fun r => r.status) = some "received"
    ∧ (storeUnknown2.get 1).map (fun r => r.status) ≠ some "processed" := by
  refine ⟨rfl, rfl, ?_⟩
  intro h
  rw [show (storeUnknown2.get 1).map (fun r => r.status) = some "received" from rfl] at h
  exact absurd h (by decide)

/-- C1, amended: for every event whose eventType has no registered handler,
dispatch (`process_event`) returns the Ignored outcome with the in-memory
status left at `received`, and the pipeline persists the row with status
`"received"` (not `"failed"` — ignored events are not failures, and not
`"processed"` either), a non-null `processed_at` and the ignored result
document. -/
theorem C1_ignored_event_pipeline (hc : Bool) (s : Store) (id : Nat) (now : String)
    (r : EventRecord) (hget : s.get id = some r)
    (hnone : defaultProcessors hc r.event = none) :
    process_event (defaultProcessors hc) (PegaEvent.from_db_row r)
        = (ignoredResult r.event, EventStatus.received)
    ∧ (process_event_background (defaultProcessors hc) s id now).get id =
        some { r with
               status := "received", processed_at := some now,
               processing_result := some (ignoredResult r.event) } := by
  have hdisp : process_event (defaultProcessors hc) (PegaEvent.from_db_row r)
      = (ignoredResult r.event, EventStatus.received) := by
    simp [process_event, PegaEvent.from_db_row, hnone]
  refine ⟨hdisp, ?_⟩
  rw [process_event_background_found hget, hdisp]
  rfl

/-- C1, witness for the amended theorem at the concrete unknown-type store. -/
theorem C1_ignored_event_pipeline_witness :
    storeUnknown1.get 1 = some (webhookRow initStore unknownTypeBody "t0")
    ∧ (process_event_background (defaultProcessors false) storeUnknown1 1 "t1").get 1 =
        some { webhookRow initStore unknownTypeBody "t0" with
               status := "received", processed_at := some "t1",
               processing_result := some (ignoredResult (webhookRow initStore unknownTypeBody "t0").event) } :=
  ⟨rfl,
   (C1_ignored_event_pipeline false storeUnknown1 1 "t1"
      (webhookRow initStore unknownTypeBody "t0") rfl rfl).2⟩

/-- C2, counterexample: the store `storeUnknown2` is reachable (one webhook
call, one background run) and its event 1 is observed in the non-terminal
status `"received"` with a non-null `processedAt` — refuting the claim that
`processedAt` stays null until a terminal status is reached. -/
theorem C2_processed_at_before_terminal_cex :
    Reachable storeUnknown2
    ∧ (storeUnknown2.get 1).map (fun r => r.status) = some "received"
    ∧ (storeUnknown2.get 1).map (fun r => r.processed_at) = some (some "t1") := by
  refine ⟨?_, rfl, rfl⟩
  have h1 : Step initStore storeUnknown1 := Step.webhook initStore unknownTypeBody "t0"
  have h2 : Step storeUnknown1 storeUnknown2 :=
    Step.run storeUnknown1 (defaultProcessors false) 1 "t1"
  exact Relation.ReflTransGen.tail (Relation.ReflTransGen.single h1) h2

/-- C2, amended: in every reachable store state, an event observed in status
`"processed"` or `"failed"` has a non-null `processedAt` (the converse
direction of the claim fails: non-terminal statuses can carry a non-null
`processedAt`, see the counterexample). -/
theorem C2_terminal_status_has_processed_at (s : Store) (h : Reachable s) :
    ∀ r ∈ s.events, (r.status = "processed" ∨ r.status = "failed") → r.processed_at ≠ none :=
  statusInv_reachable h

/-- C2, witness: the amended invariant applied to the reachable store holding
the processed onboarding event. -/
theorem C2_terminal_status_witness : onbRow.processed_at ≠ none := by
  have h1 : Step initStore storeOnb1 := Step.webhook initStore onboardingBody "t0"
  have h2 : Step storeOnb1 storeOnb2 :=
    Step.run storeOnb1 (defaultProcessors false) 1 "t1"
  have hreach : Reachable storeOnb2 :=
    Relation.ReflTransGen.tail (Relation.ReflTransGen.single h1) h2
  have hmem : onbRow ∈ storeOnb2.events := by
    show onbRow ∈ [onbRow]
    exact List.mem_singleton.mpr rfl
  exact C2_terminal_status_has_processed_at storeOnb2 hreach onbRow hmem (Or.inl rfl)

/-- C3: when the handler for an event in the store raises (returns
`Except.error msg`), the pipeline persists status `"failed"` together with
the error document `{status: "error", message: msg}` — the failure is caught
inside dispatch (`process_event` and `process_event_background` are total
functions of the store) and never escapes as a crash. -/
theorem C3_handler_failure_pipeline (P : ProcTable) (s : Store) (id : Nat) (now : String)
    (r : EventRecord) (proc : PegaEvent → Except String Json) (msg : String)
    (hget : s.get id = some r)
    (hproc : P r.event = some proc)
    (hfail : proc (PegaEvent.from_db_row r) = .error msg) :
    (process_event_background P s id now).get id =
      some { r with
             status := "failed", processed_at := some now,
             processing_result := some (errorResult msg) } := by
  have hdisp : process_event P (PegaEvent.from_db_row r) = (errorResult msg, .failed) := by
    simp only [PegaEvent.from_db_row] at hfail
    simp [process_event, PegaEvent.from_db_row, hproc, hfail]
  rw [process_event_background_found hget, hdisp]
  rfl

/-- C3, witness: the failing handler of `failingTable` at the concrete store. -/
theorem C3_handler_failure_witness :
    storeBoom1.get 1 = some (webhookRow initStore boomBody "t0")
    ∧ (process_event_background failingTable storeBoom1 1 "t1").get 1 =
        some { webhookRow initStore boomBody "t0" with
               status := "failed", processed_at := some "t1",
               processing_result := some (errorResult "kaboom") } :=
  ⟨rfl,
   C3_handler_failure_pipeline failingTable storeBoom1 1 "t1"
     (webhookRow initStore boomBody "t0") (fun _ => Except.error "kaboom") "kaboom"
     rfl rfl rfl⟩

/-- C6: a pipeline run on an id that cannot be loaded aborts with the store
completely unchanged (no row of any event is modified), and the background
function schedules nothing, so there is no retry. -/
theorem C6_background_missing_id_no_change (P : ProcTable) (s : Store) (id : Nat) (now : String)
    (h : s.get id = none) : process_event_background P s id now = s := by
  simp [process_event_background, h]

/-- C6, witness: the empty store with a dangling id. -/
theorem C6_background_missing_id_witness :
    initStore.get 7 = none
    ∧ process_event_background (defaultProcessors false) initStore 7 "t1" = initStore :=
  ⟨rfl, C6_background_missing_id_no_change (defaultProcessors false) initStore 7 "t1" rfl⟩

/-- C4: the reprocess operation answers 404 (`notFound`) on an absent id with
the store unchanged and nothing scheduled; answers 400 (`invalidTransition`)
with the store unchanged and nothing scheduled when the current status is
outside `{failed, received}`; and otherwise answers 200 `queued`, schedules
exactly one task for the id, resets the row to status `"received"` with null
`processed_at` / `processing_result`, and leaves every other row unchanged. -/
theorem C4_reprocess_contract (s : Store) (id : Nat) :
    (s.get id = none → reprocess_event s id = (s, ReprocessResult.notFound, []))
    ∧ (∀ r, s.get id = some r → r.status ≠ "failed" → r.status ≠ "received" →
        reprocess_event s id = (s, ReprocessResult.invalidTransition, []))
    ∧ (∀ r, s.get id = some r → (r.status = "failed" ∨ r.status = "received") →
        (reprocess_event s id).2.1 = ReprocessResult.queued "Event queued for reprocessing"
        ∧ (reprocess_event s id).2.2 = [id]
        ∧ (reprocess_event s id).1.get id =
            some { r with
                   status := "received", processed_at := none, processing_result := none }
        ∧ ∀ j, j ≠ id → (reprocess_event s id).1.get j = s.get j) := by
  refine ⟨?_, ?_, ?_⟩
  · intro h
    simp [reprocess_event, h]
  · intro r hget h1 h2
    simp [reprocess_event, hget, h1, h2]
  · intro r hget hst
    have hupd : reprocess_event s id =
        (s.updateEvent id resetRow, ReprocessResult.queued "Event queued for reprocessing", [id]) := by
      rcases hst with h | h <;> simp [reprocess_event, hget, h]
    have hfind : s.events.find? (fun r0 => r0.id == id) = some r := hget
    have hrid : (r.id == id) = true := by
      have hp := List.find?_some hfind
      exact hp
    refine ⟨by rw [hupd], by rw [hupd], ?_, ?_⟩
    · rw [hupd]
      show (s.updateEvent id resetRow).get id = _
      rw [Store.get_updateEvent s id resetRow resetRow_id id, hget]
      show some (if (r.id == id) = true then resetRow r else r) = _
      rw [if_pos hrid]
      rfl
    · intro j hj
      rw [hupd]
      show (s.updateEvent id resetRow).get j = s.get j
      rw [Store.get_updateEvent s id resetRow resetRow_id j]
      cases hg : s.get j with
      | none => rfl
      | some r' =>
        have hfind' : s.events.find? (fun r0 => r0.id == j) = some r' := hg
        have hr'j : (r'.id == j) = true := by
          have hp := List.find?_some hfind'
          exact hp
        have hne : ¬ ((r'.id == id) = true) := by
          intro hcontra
          have h1 : r'.id = j := by simpa using hr'j
          have h2 : r'.id = id := by simpa using hcontra
          exact hj (h2 ▸ h1.symm ▸ rfl)
        show some (if (r'.id == id) = true then resetRow r' else r') = some r'
        rw [if_neg hne]

/-- C4, witness: the three branches at concrete stores — absent id, a
`processed` event (ineligible), and a `received` event (eligible). -/
theorem C4_reprocess_contract_witness :
    reprocess_event initStore 1 = (initStore, ReprocessResult.notFound, [])
    ∧ reprocess_event storeOnb2 1 = (storeOnb2, ReprocessResult.invalidTransition, [])
    ∧ (reprocess_event storeUnknown2 1).2.1 = ReprocessResult.queued "Event queued for reprocessing"
    ∧ (reprocess_event storeUnknown2 1).2.2 = [1] :=
  ⟨(C4_reprocess_contract initStore 1).1 rfl,
   (C4_reprocess_contract storeOnb2 1).2.1 onbRow rfl (by decide) (by decide),
   ((C4_reprocess_contract storeUnknown2 1).2.2 unknownRow rfl (Or.inr rfl)).1,
   ((C4_reprocess_contract storeUnknown2 1).2.2 unknownRow rfl (Or.inr rfl)).2.1⟩

/-- C5: a webhook body whose `caseId` or `event` is missing or the empty
string is rejected with the 400 detail message, the store untouched and no
task scheduled; a body carrying non-empty strings in both fields is accepted
with the next AUTOINCREMENT id, exactly one scheduled task, and a new row
(status `received`, null timestamps/result, the full body as payload)
appended to an otherwise unchanged store. -/
theorem C5_webhook_contract (s : Store) (data : Json) (now : String) :
    ((data.getField "caseId" = none ∨ data.getField "caseId" = some (Json.str "")
      ∨ data.getField "event" = none ∨ data.getField "event" = some (Json.str "")) →
      pega_webhook s data now
        = (s, WebhookResult.badRequest "Fields \x27caseId\x27 and \x27event\x27 are required", []))
    ∧ (∀ c ev, data.getField "caseId" = some (Json.str c) → c ≠ "" →
        data.getField "event" = some (Json.str ev) → ev ≠ "" →
        (pega_webhook s data now).2.1 =
          WebhookResult.accepted s.next_id
            ("Event " ++ ev ++ " for case " ++ c ++ " queued for processing")
        ∧ (pega_webhook s data now).2.2 = [s.next_id]
        ∧ (pega_webhook s data now).1.events
            = s.events ++ [{ id := s.next_id, received_at := now, case_id := c, event := ev
                           , payload_json := data, status := "received"
                           , processed_at := none, processing_result := none }]
        ∧ (pega_webhook s data now).1.next_id = s.next_id + 1) := by
  constructor
  · intro h
    have hbad : (!pyTruthy (data.getField "caseId") || !pyTruthy (data.getField "event")) = true := by
      rcases h with h | h | h | h <;> rw [h] <;> simp [pyTruthy, Json.truthy]
    simp [pega_webhook, hbad]
  · intro c ev hc hcne hev hevne
    have hgood : (!pyTruthy (data.getField "caseId") || !pyTruthy (data.getField "event")) = false := by
      rw [hc, hev]
      simp [pyTruthy, Json.truthy, hcne, hevne]
    have hrow : webhookRow s data now
        = { id := s.next_id, received_at := now, case_id := c, event := ev
          , payload_json := data, status := "received"
          , processed_at := none, processing_result := none } := by
      simp [webhookRow, hc, hev, pyStr, Json.pyString]
    have hct : pyTruthy (some (Json.str c)) = true := by
      simp [pyTruthy, Json.truthy, hcne]
    have hevt : pyTruthy (some (Json.str ev)) = true := by
      simp [pyTruthy, Json.truthy, hevne]
    refine ⟨?_, ?_, ?_, ?_⟩ <;>
      simp [pega_webhook, hgood, hrow, hc, hev, hct, hevt, pyStr, Json.pyString]

/-- C5, witness: a body missing `caseId` is rejected with nothing persisted;
a well-formed body is accepted with id 1. -/
theorem C5_webhook_contract_witness :
    pega_webhook initStore missingCaseBody "t0"
      = (initStore, WebhookResult.badRequest "Fields \x27caseId\x27 and \x27event\x27 are required", [])
    ∧ (pega_webhook initStore onboardingBody "t0").2.1
        = WebhookResult.accepted 1 "Event employee_onboarding for case C-2 queued for processing" :=
  ⟨(C5_webhook_contract initStore missingCaseBody "t0").1 (Or.inl rfl),
   ((C5_webhook_contract initStore onboardingBody "t0").2 "C-2" "employee_onboarding"
      rfl (by decide) rfl (by decide)).1⟩

/-- C7: across any run of the system, ids returned by successful webhook
accepts strictly increase (so no id is ever reused: the id of every later
accept exceeds every earlier one); in every reachable store the row ids are
strictly increasing in insertion order (hence pairwise distinct); and along
any sequence of steps, every existing row keeps its
(id, received_at, case_id, event, payload) tuple unchanged. -/
theorem C7_accept_id_discipline :
    (∀ s₁ data₁ now₁ id₁ m₁ s₂ data₂ now₂ id₂ m₂,
      (pega_webhook s₁ data₁ now₁).2.1 = WebhookResult.accepted id₁ m₁ →
      Relation.ReflTransGen Step (pega_webhook s₁ data₁ now₁).1 s₂ →
      (pega_webhook s₂ data₂ now₂).2.1 = WebhookResult.accepted id₂ m₂ →
      id₁ < id₂)
    ∧ (∀ s, Reachable s → s.events.Pairwise (fun a b => a.id < b.id))
    ∧ (∀ s s', Relation.ReflTransGen Step s s' → ∀ r ∈ s.events,
        ∃ r' ∈ s'.events, r'.id = r.id ∧ r'.received_at = r.received_at
          ∧ r'.case_id = r.case_id ∧ r'.event = r.event
          ∧ r'.payload_json = r.payload_json) := by
  refine ⟨?_, ?_, ?_⟩
  · intro s₁ data₁ now₁ id₁ m₁ s₂ data₂ now₂ id₂ m₂ h1 hrtg h2
    obtain ⟨hid1, hstore⟩ := webhook_accepted h1
    obtain ⟨hid2, _⟩ := webhook_accepted h2
    have hmono := rtg_next_id_mono hrtg
    rw [hstore] at hmono
    have hmono' : s₁.next_id + 1 ≤ s₂.next_id := hmono
    rw [hid1, hid2]
    exact Nat.lt_of_succ_le hmono'
  · intro s h
    exact (idInv_reachable h).2
  · intro s s' h r hr
    exact rtg_mem_sameCore h hr

/-- C7, witness: two consecutive accepts on the fresh store return 1 then 2,
and the theorem yields 1 < 2. -/
theorem C7_accept_id_discipline_witness :
    (pega_webhook initStore onboardingBody "t0").2.1
      = WebhookResult.accepted 1 "Event employee_onboarding for case C-2 queued for processing"
    ∧ (pega_webhook storeOnb1 unknownTypeBody "t1").2.1
      = WebhookResult.accepted 2 "Event approval_request for case C-1 queued for processing"
    ∧ 1 < 2 :=
  ⟨rfl, rfl,
   C7_accept_id_discipline.1 initStore onboardingBody "t0" 1 _ storeOnb1 unknownTypeBody "t1" 2 _
     rfl Relation.ReflTransGen.refl rfl⟩

/-- C8: the `limit` query parameter defaults to 10, is accepted exactly on
1..100, and 101 is deterministically rejected (FastAPI validation error)
rather than clamped; every successful `GET /events` response is ordered by
descending id (newest first). -/
theorem C8_list_events_contract :
    validateLimit none = Except.ok 10
    ∧ (∀ n : Int, validateLimit (some n) = Except.ok n ↔ 1 ≤ n ∧ n ≤ 100)
    ∧ (∀ s event status case_id,
        list_events s (some 101) event status case_id = Except.error "limit out of range")
    ∧ (∀ s limit event status case_id rows,
        list_events s limit event status case_id = Except.ok rows →
        rows.Pairwise (fun a b => b.id ≤ a.id)) := by
  refine ⟨rfl, ?_, ?_, ?_⟩
  · intro n
    constructor
    · intro h
      by_cases hcond : 1 ≤ n ∧ n ≤ 100
      · exact hcond
      · simp [validateLimit, hcond] at h
    · intro hcond
      simp [validateLimit, hcond]
  · intro s event status case_id
    have h101 : validateLimit (some 101) = Except.error "limit out of range" := by
      simp [validateLimit]
    simp [list_events, h101]
  · intro s limit event status case_id rows h
    cases hv : validateLimit limit with
    | error e => simp [list_events, hv] at h
    | ok n =>
      simp only [list_events, hv] at h
      injection h with h
      rw [← h]
      exact List.Pairwise.sublist (List.take_sublist _ _)
        (pairwise_sortDesc (s.events.filter (matchesFilters event status case_id)))

/-- C8, witness: the sortedness conjunct applied to the concrete one-event
store (and, without hypotheses, the default and the 101 rejection follow
from the same theorem at concrete arguments). -/
theorem C8_list_events_contract_witness :
    list_events storeOnb2 none none none none = Except.ok [onbRow]
    ∧ [onbRow].Pairwise (fun a b : EventRecord => b.id ≤ a.id)
    ∧ list_events storeOnb2 (some 101) none none none = Except.error "limit out of range" :=
  ⟨rfl,
   C8_list_events_contract.2.2.2 storeOnb2 none none none none [onbRow] rfl,
   C8_list_events_contract.2.2.1 storeOnb2 none none none⟩

/-- C9: a payload accepted by the webhook is stored as submitted: the fresh
store returns it unchanged from `GET /events/{id}`, and it stays
structurally equal to the submitted document after any further sequence of
system steps (`json.dumps`/`json.loads` round-trip structurally). -/
theorem C9_payload_round_trip (s : Store) (data : Json) (now : String) (id : Nat) (m : String)
    (hs : Reachable s)
    (hacc : (pega_webhook s data now).2.1 = WebhookResult.accepted id m) :
    (∃ row, get_event (pega_webhook s data now).1 id = some row ∧ row.payload_json = data)
    ∧ (∀ s'', Relation.ReflTransGen Step (pega_webhook s data now).1 s'' →
        ∃ row, get_event s'' id = some row ∧ row.payload_json = data) := by
  obtain ⟨hid, hstore⟩ := webhook_accepted hacc
  have hinv := idInv_reachable hs
  have hget : (pega_webhook s data now).1.get id = some (webhookRow s data now) := by
    rw [hstore, hid]
    show (s.events ++ [webhookRow s data now]).find? (fun r => r.id == s.next_id)
        = some (webhookRow s data now)
    rw [List.find?_append]
    have hnone : s.events.find? (fun r => r.id == s.next_id) = none := by
      rw [List.find?_eq_none]
      intro x hx
      have hlt := hinv.1 x hx
      simp only [beq_iff_eq]
      omega
    rw [hnone]
    simp [webhookRow]
  refine ⟨⟨webhookRow s data now, hget, rfl⟩, ?_⟩
  intro s'' hrtg
  obtain ⟨r', hg', hsc⟩ := rtg_get_sameCore hrtg hget
  exact ⟨r', hg', hsc.2.2.2.2⟩

/-- C9, witness: the onboarding payload round-trips through the fresh store. -/
theorem C9_payload_round_trip_witness :
    ∃ row, get_event storeOnb1 1 = some row ∧ row.payload_json = onboardingBody :=
  (C9_payload_round_trip initStore onboardingBody "t0" 1
    "Event employee_onboarding for case C-2 queued for processing"
    Relation.ReflTransGen.refl rfl).1

/-- C10: supplying any of the three `GET /events` filters as the empty
string yields exactly the same result as omitting it — empty-string filters
are ignored, they do not select rows whose field equals the empty string. -/
theorem C10_empty_filter_is_no_filter (s : Store) (limit : Option Int) (a b : Option String) :
    list_events s limit (some "") a b = list_events s limit none a b
    ∧ list_events s limit a (some "") b = list_events s limit a none b
    ∧ list_events s limit a b (some "") = list_events s limit a b none := by
  refine ⟨?_, ?_, ?_⟩
  · have h1 : matchesFilters (some "") a b = matchesFilters none a b := by
      funext r
      simp [matchesFilters, applyFilter, strTruthy]
    simp only [list_events, h1]
  · have h1 : matchesFilters a (some "") b = matchesFilters a none b := by
      funext r
      simp [matchesFilters, applyFilter, strTruthy]
    simp only [list_events, h1]
  · have h1 : matchesFilters a b (some "") = matchesFilters a b none := by
      funext r
      simp [matchesFilters, applyFilter, strTruthy]
    simp only [list_events, h1]
